import Mathlib

/-!
Shallow embedding of the seat-assignment core of `src/src/App.tsx`
(martykimm/jule-seating).

The source has two logical pieces:
  * `generateSeats(count)` — a pure seat-pool generator (App.tsx lines 10-25);
  * `spinForSeat` — the animated draw loop (App.tsx lines 78-118), together
    with `handleReset` (lines 70-76) and the `isSpinning` guard.

The draw loop is embedded twice, at two levels of detail:
  * a big-step function `spinForSeat` that runs the whole tick loop at once
    (the tick budget `remainingSteps`, randomly chosen in the source, is an
    explicit parameter here);
  * a small-step event machine (`handleEvent` over `AppState`) in which each
    scheduled timeout callback is one `AppEvent.tick`, so that interleavings of
    `startDraw`, `tick` and `reset` can be analysed.  The source's
    `window.setTimeout` chain is modelled by the `pending` queue: a pending
    `RunState` is exactly a scheduled `step` closure (its captured
    `seatsPool`, `currentIndex` and `remainingSteps`).  `handleReset` in the
    source does not cancel the scheduled timeout, so `Event.reset` leaves
    `pending` untouched while clearing `isSpinning`, exactly as the source
    does.
-/

inductive Side
  | top
  | bottom
deriving DecidableEq, Repr

structure Seat where
  id : Nat
  side : Side
  indexOnSide : Nat
  assigned : Bool
deriving DecidableEq, Repr

/-- Translation of `generateSeats`, App.tsx lines 10-25.  `Math.ceil(count / 2)` on an
integer `count` equals the floor of `(count + 1) / 2`, i.e. `Int.ediv`
(Euclidean division, which floors for the positive divisor 2).  The two
`for` loops run `max(topCount, 0)` resp. `max(bottomCount, 0)` times, which
`Int.toNat` captures; the running `id` counter starts at 1 and continues
from the top row into the bottom row. -/
def generateSeats (count : Int) : List Seat :=
  let topCount : Int := (count + 1) / 2
  let bottomCount : Int := count - topCount
  ((List.range topCount.toNat).map fun i =>
    { id := 1 + i, side := Side.top, indexOnSide := i, assigned := false }) ++
  ((List.range bottomCount.toNat).map fun i =>
    { id := 1 + topCount.toNat + i, side := Side.bottom, indexOnSide := i,
      assigned := false })

/-- Default used for `List.getD`; the source only ever indexes a nonempty
`seatsPool`, so this default is never the value actually read in any theorem
below (each use carries a nonemptiness hypothesis). -/
def defaultSeat : Seat :=
  { id := 0, side := Side.top, indexOnSide := 0, assigned := false }

/-- The recursive `step` closure of `spinForSeat` (App.tsx lines 93-115),
run to completion.  Each call reads `seatsPool[currentIndex % len]`, emits
that seat's id as a highlight, increments `currentIndex` and decrements
`remainingSteps`; when the decremented counter is `<= 0` (i.e. the argument
was `<= 1`) it commits the seat just highlighted.  Returns the highlight
sequence and the committed seat. -/
def stepLoop (seatsPool : List Seat) : Nat → Nat → List Nat × Seat
  | currentIndex, 0 =>
    let seat := seatsPool.getD (currentIndex % seatsPool.length) defaultSeat
    ([seat.id], seat)
  | currentIndex, 1 =>
    let seat := seatsPool.getD (currentIndex % seatsPool.length) defaultSeat
    ([seat.id], seat)
  | currentIndex, n + 2 =>
    let seat := seatsPool.getD (currentIndex % seatsPool.length) defaultSeat
    let rest := stepLoop seatsPool (currentIndex + 1) (n + 1)
    (seat.id :: rest.1, rest.2)

/-- The terminal tick's `setSeats` update (App.tsx lines 102-106): every
seat of the current pool whose `id` equals the committed seat's id gets
`assigned := true`; all others are returned unchanged. -/
def commitById (seats : List Seat) (finalId : Nat) : List Seat :=
  seats.map fun s => if s.id = finalId then { s with assigned := true } else s

inductive SpinOutcome
  /-- The guard `if (isSpinning) return;` fired — the call is silently ignored. -/
  | ignored
  /-- The check `availableSeats.length === 0` fired — the draw fails, only a status message
  is shown. -/
  | noAvailableSeats
  /-- A completed draw: the emitted highlight ids, the committed seat, and
  the updated pool. -/
  | completed (highlights : List Nat) (result : Seat) (newSeats : List Seat)
deriving DecidableEq, Repr

/-- Big-step embedding of `spinForSeat` (App.tsx lines 78-118): the guard on
`isSpinning`, the empty-pool check on `availableSeats`, the snapshot
`seatsPool = [...availableSeats]`, and the tick loop run to completion.
`remainingSteps` is the source's random tick budget
`28 + Math.floor(Math.random() * 18)`, made an explicit parameter. -/
def spinForSeat (isSpinning : Bool) (seats : List Seat)
    (remainingSteps : Nat) : SpinOutcome :=
  if isSpinning then SpinOutcome.ignored
  else
    let availableSeats := seats.filter fun s => !s.assigned
    if availableSeats.length = 0 then SpinOutcome.noAvailableSeats
    else
      let run := stepLoop availableSeats 0 remainingSteps
      SpinOutcome.completed run.1 run.2 (commitById seats run.2.id)

/-- One draw against a pool, keeping only the updated pool; `none` when the
draw did not complete. -/
def drawOnce (seats : List Seat) (remainingSteps : Nat) : Option (List Seat) :=
  match spinForSeat false seats remainingSteps with
  | SpinOutcome.completed _ _ newSeats => some newSeats
  | _ => none

/-- A sequence of draws, one tick budget per draw; fails as soon as one
draw fails. -/
def drawSeq : List Seat → List Nat → Option (List Seat)
  | seats, [] => some seats
  | seats, t :: ts =>
    match drawOnce seats t with
    | some seats' => drawSeq seats' ts
    | none => none

/-- Rank used to order the two sides: TOP seats precede BOTTOM seats. -/
def sideRank : Side → Nat
  | Side.top => 0
  | Side.bottom => 1

/-- Strict order on seats by the key `(side, indexOnSide)` (TOP before
BOTTOM, then by index).  A pool pairwise-sorted by this key is reproduced
exactly by sorting on `(side, indexOnSide)`. -/
def seatLt (a b : Seat) : Prop :=
  sideRank a.side < sideRank b.side ∨
    (a.side = b.side ∧ a.indexOnSide < b.indexOnSide)

instance (a b : Seat) : Decidable (seatLt a b) := by
  unfold seatLt; infer_instance

structure RunState where
  seatsPool : List Seat
  currentIndex : Nat
  remainingSteps : Nat
deriving DecidableEq, Repr

structure AppState where
  seats : List Seat
  isSpinning : Bool
  highlightSeatId : Option Nat
  lastResult : Option Seat
  message : Option String
  pending : List RunState
deriving DecidableEq, Repr

inductive AppEvent
  | startDraw (remainingSteps : Nat)
  | tick
  | reset (count : Int)
deriving DecidableEq, Repr

def AppEvent.isReset : AppEvent → Bool
  | AppEvent.reset _ => true
  | _ => false

def runStepE (st : AppState) (r : RunState) : AppState × List Nat :=
  let seat := r.seatsPool.getD (r.currentIndex % r.seatsPool.length) defaultSeat
  if r.remainingSteps ≤ 1 then
    ({ st with seats := commitById st.seats seat.id,
               highlightSeatId := some seat.id,
               lastResult := some seat,
               isSpinning := false }, [seat.id])
  else
    ({ st with highlightSeatId := some seat.id,
               pending := st.pending ++
                 [⟨r.seatsPool, r.currentIndex + 1, r.remainingSteps - 1⟩] },
     [seat.id])

def handleEvent (st : AppState) (e : AppEvent) : AppState × List Nat :=
  match e with
  | AppEvent.startDraw T =>
    if st.isSpinning then (st, [])
    else
      let availableSeats := st.seats.filter fun s => !s.assigned
      if availableSeats.length = 0 then
        ({ st with message := some "Alle pladser er taget." }, [])
      else
        runStepE { st with isSpinning := true, message := none }
          ⟨availableSeats, 0, T⟩
  | AppEvent.tick =>
    match st.pending with
    | [] => (st, [])
    | r :: rest => runStepE { st with pending := rest } r
  | AppEvent.reset count =>
    ({ st with seats := generateSeats count, lastResult := none,
               message := none, highlightSeatId := none,
               isSpinning := false }, [])

def stepEvents : AppState → List AppEvent → AppState
  | st, [] => st
  | st, e :: es => stepEvents (handleEvent st e).1 es

def SessionInv (st : AppState) : Prop :=
  (st.isSpinning = true ↔ st.pending ≠ []) ∧ st.pending.length ≤ 1

instance (st : AppState) : Decidable (SessionInv st) := by
  unfold SessionInv; infer_instance

theorem generateSeats_natCast (n : Nat) :
    generateSeats (n : Int) =
      ((List.range ((n + 1) / 2)).map fun i =>
        { id := 1 + i, side := Side.top, indexOnSide := i, assigned := false }) ++
      ((List.range (n - (n + 1) / 2)).map fun i =>
        { id := 1 + (n + 1) / 2 + i, side := Side.bottom, indexOnSide := i,
          assigned := false }) := by
  have h1 : (((n : Int) + 1) / 2).toNat = (n + 1) / 2 := by omega
  have h2 : ((n : Int) - ((n : Int) + 1) / 2).toNat = n - (n + 1) / 2 := by omega
  simp only [generateSeats, h1, h2]

theorem generateSeats_ids (n : Nat) :
    (generateSeats (n : Int)).map (fun s => s.id) = List.range' 1 n := by
  rw [generateSeats_natCast, List.map_append]
  simp only [List.map_map, Function.comp_def]
  rw [← List.range'_eq_map_range, ← List.range'_eq_map_range]
  have := List.range'_append 1 ((n + 1) / 2) (n - (n + 1) / 2) 1
  simp only [one_mul] at this
  rw [this]
  congr 1
  omega

theorem generateSeats_top_filter (n : Nat) :
    (generateSeats (n : Int)).filter (fun s => decide (s.side = Side.top)) =
      (List.range ((n + 1) / 2)).map fun i =>
        { id := 1 + i, side := Side.top, indexOnSide := i, assigned := false } := by
  rw [generateSeats_natCast, List.filter_append]
  simp [List.filter_map, Function.comp_def]

theorem generateSeats_bottom_filter (n : Nat) :
    (generateSeats (n : Int)).filter (fun s => decide (s.side = Side.bottom)) =
      (List.range (n - (n + 1) / 2)).map fun i =>
        { id := 1 + (n + 1) / 2 + i, side := Side.bottom, indexOnSide := i,
          assigned := false } := by
  rw [generateSeats_natCast, List.filter_append]
  simp [List.filter_map, Function.comp_def]

theorem generateSeats_pairwise (n : Nat) :
    (generateSeats (n : Int)).Pairwise seatLt := by
  rw [generateSeats_natCast, List.pairwise_append]
  refine ⟨?_, ?_, ?_⟩
  · rw [List.pairwise_map]
    refine List.Pairwise.imp ?_ (List.pairwise_lt_range _)
    intro a b hab
    exact Or.inr ⟨rfl, hab⟩
  · rw [List.pairwise_map]
    refine List.Pairwise.imp ?_ (List.pairwise_lt_range _)
    intro a b hab
    exact Or.inr ⟨rfl, hab⟩
  · intro a ha b hb
    simp only [List.mem_map, List.mem_range] at ha hb
    obtain ⟨i, -, rfl⟩ := ha
    obtain ⟨j, -, rfl⟩ := hb
    exact Or.inl (by simp [sideRank])

theorem generateSeats_assigned_all (count : Int) :
    ∀ s ∈ generateSeats count, s.assigned = false := by
  intro s hs
  simp only [generateSeats, List.mem_append, List.mem_map, List.mem_range] at hs
  rcases hs with ⟨i, -, rfl⟩ | ⟨i, -, rfl⟩ <;> rfl

theorem generateSeats_length (n : Nat) :
    (generateSeats (n : Int)).length = n := by
  rw [generateSeats_natCast]
  simp only [List.length_append, List.length_map, List.length_range]
  omega

/-- Claim C1: for every integer `count ≥ 0`, `generateSeats count` returns
exactly `count` seats whose ids are exactly `1..count` in generation order
(no gaps or duplicates), with `⌈count/2⌉ = (count+1)/2` seats of side TOP
and `count - ⌈count/2⌉` of side BOTTOM, `indexOnSide` running `0..k-1`
strictly increasing within each side, every seat `assigned = false`, and
the sequence pairwise strictly sorted by `(side, indexOnSide)`, so ordering
by that key reproduces generation order. -/
theorem generateSeats_spec (count : Int) (hc : 0 ≤ count) :
    (generateSeats count).length = count.toNat ∧
    (generateSeats count).map (fun s => s.id) = List.range' 1 count.toNat ∧
    ((generateSeats count).filter (fun s => decide (s.side = Side.top))).length
      = (count.toNat + 1) / 2 ∧
    ((generateSeats count).filter (fun s => decide (s.side = Side.bottom))).length
      = count.toNat - (count.toNat + 1) / 2 ∧
    ((generateSeats count).filter (fun s => decide (s.side = Side.top))).map
      (fun s => s.indexOnSide) = List.range ((count.toNat + 1) / 2) ∧
    ((generateSeats count).filter (fun s => decide (s.side = Side.bottom))).map
      (fun s => s.indexOnSide)
      = List.range (count.toNat - (count.toNat + 1) / 2) ∧
    (∀ s ∈ generateSeats count, s.assigned = false) ∧
    (generateSeats count).Pairwise seatLt := by
  obtain ⟨n, rfl⟩ : ∃ n : Nat, count = (n : Int) :=
    ⟨count.toNat, (Int.toNat_of_nonneg hc).symm⟩
  rw [Int.toNat_natCast]
  refine ⟨generateSeats_length n, generateSeats_ids n, ?_, ?_, ?_, ?_,
    generateSeats_assigned_all _, generateSeats_pairwise n⟩
  · rw [generateSeats_top_filter]; simp
  · rw [generateSeats_bottom_filter]; simp
  · rw [generateSeats_top_filter]
    simp [List.map_map, Function.comp_def]
  · rw [generateSeats_bottom_filter]
    simp [List.map_map, Function.comp_def]

theorem generateSeats_spec_witness :
    (0 : Int) ≤ 5 ∧
    ((generateSeats 5).length = (5 : Int).toNat ∧
     (generateSeats 5).map (fun s => s.id) = List.range' 1 (5 : Int).toNat ∧
     ((generateSeats 5).filter (fun s => decide (s.side = Side.top))).length
       = ((5 : Int).toNat + 1) / 2 ∧
     ((generateSeats 5).filter (fun s => decide (s.side = Side.bottom))).length
       = (5 : Int).toNat - ((5 : Int).toNat + 1) / 2 ∧
     ((generateSeats 5).filter (fun s => decide (s.side = Side.top))).map
       (fun s => s.indexOnSide) = List.range (((5 : Int).toNat + 1) / 2) ∧
     ((generateSeats 5).filter (fun s => decide (s.side = Side.bottom))).map
       (fun s => s.indexOnSide)
       = List.range ((5 : Int).toNat - ((5 : Int).toNat + 1) / 2) ∧
     (∀ s ∈ generateSeats 5, s.assigned = false) ∧
     (generateSeats 5).Pairwise seatLt) :=
  ⟨by decide, generateSeats_spec 5 (by decide)⟩

/-- Claim C7: `generateSeats` is deterministic and side-effect free — two
calls with the same `count` produce structurally identical seat sequences,
and `assigned` is always false on generation. -/
theorem generateSeats_deterministic (c₁ c₂ : Int) (h : c₁ = c₂) :
    generateSeats c₁ = generateSeats c₂ ∧
    ∀ s ∈ generateSeats c₁, s.assigned = false := by
  subst h
  exact ⟨rfl, generateSeats_assigned_all c₁⟩

theorem generateSeats_deterministic_witness :
    (4 : Int) = 4 ∧
    (generateSeats 4 = generateSeats 4 ∧
     ∀ s ∈ generateSeats 4, s.assigned = false) :=
  ⟨rfl, generateSeats_deterministic 4 4 rfl⟩

/-- Claim C10: `generateSeats` is total over all integers — for every
negative `count`, `topCount = ⌈count/2⌉ ≤ 0` and
`bottomCount = count - topCount ≤ 0`, both emission loops run zero times,
and the result is the empty sequence. -/
theorem generateSeats_negative (count : Int) (h : count < 0) :
    (count + 1) / 2 ≤ 0 ∧ count - (count + 1) / 2 ≤ 0 ∧
    generateSeats count = [] := by
  refine ⟨by omega, by omega, ?_⟩
  have h1 : ((count + 1) / 2).toNat = 0 := by omega
  have h2 : (count - (count + 1) / 2).toNat = 0 := by omega
  simp [generateSeats, h1, h2]

theorem generateSeats_negative_witness :
    (-3 : Int) < 0 ∧
    (((-3 : Int) + 1) / 2 ≤ 0 ∧ (-3 : Int) - ((-3 : Int) + 1) / 2 ≤ 0 ∧
     generateSeats (-3) = []) :=
  ⟨by decide, generateSeats_negative (-3) (by decide)⟩

theorem getD_mod_mem (pool : List Seat) (hne : pool ≠ []) (k : Nat) :
    pool.getD (k % pool.length) defaultSeat ∈ pool := by
  have hl : 0 < pool.length := List.length_pos.mpr hne
  have h : k % pool.length < pool.length := Nat.mod_lt _ hl
  rw [List.getD_eq_getElem _ _ h]
  exact List.getElem_mem h

theorem range_map_shift (pool : List Seat) (i m : Nat) :
    (pool.getD (i % pool.length) defaultSeat).id ::
      (List.range m).map
        (fun k => (pool.getD ((i + 1 + k) % pool.length) defaultSeat).id) =
    (List.range (m + 1)).map
      (fun k => (pool.getD ((i + k) % pool.length) defaultSeat).id) := by
  rw [List.range_succ_eq_map, List.map_cons, List.map_map]
  congr 1
  refine List.map_congr_left fun k hk => ?_
  simp only [Function.comp_def, Nat.succ_eq_add_one]
  have harg : i + 1 + k = i + (k + 1) := by omega
  rw [harg]

theorem stepLoop_spec (pool : List Seat) (T : Nat) :
    ∀ i, 1 ≤ T →
    stepLoop pool i T =
      ((List.range T).map fun k =>
        (pool.getD ((i + k) % pool.length) defaultSeat).id,
       pool.getD ((i + (T - 1)) % pool.length) defaultSeat) := by
  induction T with
  | zero => intro i h; omega
  | succ m ih =>
    intro i _
    cases m with
    | zero => simp [stepLoop, List.range_succ]
    | succ m' =>
      have h1 : 1 ≤ m' + 1 := by omega
      show stepLoop pool i (m' + 2) = _
      simp only [stepLoop]
      rw [ih (i + 1) h1]
      refine Prod.ext ?_ ?_
      · show (pool.getD (i % pool.length) defaultSeat).id ::
          (List.range (m' + 1)).map
            (fun k => (pool.getD ((i + 1 + k) % pool.length) defaultSeat).id) =
          (List.range (m' + 1 + 1)).map
            (fun k => (pool.getD ((i + k) % pool.length) defaultSeat).id)
        exact range_map_shift pool i (m' + 1)
      · show pool.getD ((i + 1 + (m' + 1 - 1)) % pool.length) defaultSeat =
          pool.getD ((i + (m' + 1 + 1 - 1)) % pool.length) defaultSeat
        have harg : i + 1 + (m' + 1 - 1) = i + (m' + 1 + 1 - 1) := by omega
        rw [harg]

theorem stepLoop_snd_mem (pool : List Seat) (hne : pool ≠ []) :
    ∀ T i, (stepLoop pool i T).2 ∈ pool := by
  intro T
  induction T with
  | zero => intro i; exact getD_mod_mem pool hne i
  | succ m ih =>
    intro i
    cases m with
    | zero => exact getD_mod_mem pool hne i
    | succ m' =>
      show (stepLoop pool i (m' + 2)).2 ∈ pool
      simp only [stepLoop]
      exact ih (i + 1)

theorem spinForSeat_completed_of_ne (seats : List Seat) (T : Nat)
    (hne : seats.filter (fun s => !s.assigned) ≠ []) :
    spinForSeat false seats T =
      SpinOutcome.completed
        (stepLoop (seats.filter fun s => !s.assigned) 0 T).1
        (stepLoop (seats.filter fun s => !s.assigned) 0 T).2
        (commitById seats
          (stepLoop (seats.filter fun s => !s.assigned) 0 T).2.id) := by
  have h : ¬ (seats.filter fun s => !s.assigned).length = 0 := by
    simpa [List.length_eq_zero] using hne
  simp [spinForSeat, h]

theorem spinForSeat_completed_inv (seats : List Seat) (T : Nat)
    (hl : List Nat) (res : Seat) (new : List Seat)
    (h : spinForSeat false seats T = SpinOutcome.completed hl res new) :
    seats.filter (fun s => !s.assigned) ≠ [] ∧
    hl = (stepLoop (seats.filter fun s => !s.assigned) 0 T).1 ∧
    res = (stepLoop (seats.filter fun s => !s.assigned) 0 T).2 ∧
    new = commitById seats res.id := by
  by_cases hz : (seats.filter fun s => !s.assigned).length = 0
  · simp [spinForSeat, hz] at h
  · have hne : (seats.filter fun s => !s.assigned) ≠ [] := by
      intro hmod
      rw [hmod] at hz
      simp at hz
    simp only [spinForSeat, Bool.false_eq_true, if_false, if_neg hz] at h
    cases h
    exact ⟨hne, rfl, rfl, rfl⟩

theorem commitById_eq_of_not_mem (l : List Seat) (fid : Nat)
    (h : ∀ s ∈ l, s.id ≠ fid) : commitById l fid = l := by
  induction l with
  | nil => rfl
  | cons a t ih =>
    simp only [commitById, List.map_cons]
    rw [if_neg (h a (by simp))]
    congr 1
    exact ih fun s hs => h s (List.mem_cons_of_mem a hs)

theorem commitById_ids (seats : List Seat) (fid : Nat) :
    (commitById seats fid).map (fun s => s.id) = seats.map fun s => s.id := by
  simp only [commitById, List.map_map]
  refine List.map_congr_left fun s hs => ?_
  simp only [Function.comp_def]
  split <;> rfl

theorem commitById_length (seats : List Seat) (fid : Nat) :
    (commitById seats fid).length = seats.length := by
  simp [commitById]

theorem nodup_head_ne (a : Seat) (t : List Seat)
    (hnodup : ((a :: t).map fun s => s.id).Nodup) :
    ∀ s ∈ t, s.id ≠ a.id := by
  intro s hs heq
  rw [List.map_cons, List.nodup_cons] at hnodup
  exact hnodup.1 (heq ▸ List.mem_map_of_mem (fun s => s.id) hs)

theorem commitById_set (seats : List Seat) (res : Seat) :
    ∀ j, ((seats.map fun s => s.id).Nodup) → j < seats.length →
    seats.getD j defaultSeat = res →
    commitById seats res.id = seats.set j { res with assigned := true } := by
  induction seats with
  | nil => intro j _ hj _; simp at hj
  | cons a t ih =>
    intro j hnodup hj hget
    cases j with
    | zero =>
      rw [List.getD_cons_zero] at hget
      subst hget
      simp only [commitById, List.map_cons, if_pos rfl, List.set]
      congr 1
      exact commitById_eq_of_not_mem t a.id (nodup_head_ne a t hnodup)
    | succ j' =>
      rw [List.getD_cons_succ] at hget
      have hj' : j' < t.length := by simpa using hj
      have hresmem : res ∈ t := by
        rw [← hget, List.getD_eq_getElem _ _ hj']
        exact List.getElem_mem hj'
      have hane : a.id ≠ res.id := fun heq =>
        nodup_head_ne a t hnodup res hresmem heq.symm
      simp only [commitById, List.map_cons, if_neg hane, List.set]
      congr 1
      refine ih j' ?_ hj' hget
      rw [List.map_cons, List.nodup_cons] at hnodup
      exact hnodup.2

theorem commitById_countP (seats : List Seat) (res : Seat) :
    ((seats.map fun s => s.id).Nodup) → res ∈ seats → res.assigned = false →
    (commitById seats res.id).countP (fun s => !s.assigned) + 1 =
      seats.countP (fun s => !s.assigned) := by
  induction seats with
  | nil => intro _ hmem _; simp at hmem
  | cons a t ih =>
    intro hnodup hmem hfree
    rcases List.mem_cons.mp hmem with rfl | hmem'
    · simp only [commitById, List.map_cons, if_pos rfl]
      rw [show (List.map (fun s =>
          if s.id = res.id then { s with assigned := true } else s) t)
          = commitById t res.id from rfl]
      rw [commitById_eq_of_not_mem t res.id (nodup_head_ne res t hnodup)]
      rw [List.countP_cons, List.countP_cons]
      simp [hfree]
    · have hane : a.id ≠ res.id := fun heq =>
        nodup_head_ne a t hnodup res hmem' heq.symm
      simp only [commitById, List.map_cons, if_neg hane]
      rw [show (List.map (fun s =>
          if s.id = res.id then { s with assigned := true } else s) t)
          = commitById t res.id from rfl]
      rw [List.countP_cons, List.countP_cons]
      have hn' : (t.map fun s => s.id).Nodup := by
        rw [List.map_cons, List.nodup_cons] at hnodup
        exact hnodup.2
      have := ih hn' hmem' hfree
      omega

/-- Claim C2: during a successful draw over the free-seat snapshot `pool`
with tick budget `T ≥ 1`, the k-th tick (k = 0..T-1) highlights
`pool[k mod n]`, producing exactly `T` highlight events followed by exactly
one committed seat, and the committed seat is `pool[(T-1) mod n]` — the
very seat highlighted at the final tick, not a freshly re-sampled one. -/
theorem spinForSeat_tick_protocol (seats : List Seat) (T : Nat)
    (pool : List Seat) (hp : pool = seats.filter fun s => !s.assigned)
    (hne : pool ≠ []) (hT : 1 ≤ T) :
    spinForSeat false seats T =
      SpinOutcome.completed
        ((List.range T).map fun k =>
          (pool.getD (k % pool.length) defaultSeat).id)
        (pool.getD ((T - 1) % pool.length) defaultSeat)
        (commitById seats
          (pool.getD ((T - 1) % pool.length) defaultSeat).id) ∧
    ((List.range T).map fun k =>
      (pool.getD (k % pool.length) defaultSeat).id).length = T := by
  subst hp
  refine ⟨?_, by simp⟩
  rw [spinForSeat_completed_of_ne seats T hne, stepLoop_spec _ T 0 hT]
  simp only [Nat.zero_add]

theorem spinForSeat_tick_protocol_witness :
    ((generateSeats 2 : List Seat) = (generateSeats 2).filter
        (fun s => !s.assigned) ∧
     (generateSeats 2 : List Seat) ≠ [] ∧ 1 ≤ 3) ∧
    (spinForSeat false (generateSeats 2) 3 =
      SpinOutcome.completed
        ((List.range 3).map fun k =>
          ((generateSeats 2).getD (k % (generateSeats 2).length)
            defaultSeat).id)
        ((generateSeats 2).getD ((3 - 1) % (generateSeats 2).length)
          defaultSeat)
        (commitById (generateSeats 2)
          ((generateSeats 2).getD ((3 - 1) % (generateSeats 2).length)
            defaultSeat).id) ∧
     ((List.range 3).map fun k =>
       ((generateSeats 2).getD (k % (generateSeats 2).length)
         defaultSeat).id).length = 3) :=
  ⟨⟨by decide, by decide, by decide⟩,
   spinForSeat_tick_protocol (generateSeats 2) 3 (generateSeats 2)
     (by decide) (by decide) (by decide)⟩

/-- Claim C3: the seat committed by a completed draw was a member of the
free set (`assigned = false`) of the pool at the moment the draw started,
i.e. it belongs to the snapshot `seats.filter (fun s => !s.assigned)`. -/
theorem spinForSeat_commit_was_free (seats : List Seat) (T : Nat)
    (hl : List Nat) (res : Seat) (new : List Seat)
    (h : spinForSeat false seats T = SpinOutcome.completed hl res new) :
    res ∈ seats.filter (fun s => !s.assigned) ∧
    res ∈ seats ∧ res.assigned = false := by
  obtain ⟨hne, -, hres, -⟩ := spinForSeat_completed_inv seats T hl res new h
  have hmem : res ∈ seats.filter (fun s => !s.assigned) := by
    rw [hres]; exact stepLoop_snd_mem _ hne T 0
  have hmf := List.mem_filter.mp hmem
  exact ⟨hmem, hmf.1, by simpa using hmf.2⟩

theorem spinForSeat_commit_was_free_witness :
    spinForSeat false (generateSeats 2) 3 =
      SpinOutcome.completed [1, 2, 1] ⟨1, Side.top, 0, false⟩
        [⟨1, Side.top, 0, true⟩, ⟨2, Side.bottom, 0, false⟩] ∧
    ((⟨1, Side.top, 0, false⟩ : Seat) ∈
       (generateSeats 2).filter (fun s => !s.assigned) ∧
     (⟨1, Side.top, 0, false⟩ : Seat) ∈ generateSeats 2 ∧
     (⟨1, Side.top, 0, false⟩ : Seat).assigned = false) :=
  ⟨by decide,
   spinForSeat_commit_was_free (generateSeats 2) 3 [1, 2, 1]
     ⟨1, Side.top, 0, false⟩
     [⟨1, Side.top, 0, true⟩, ⟨2, Side.bottom, 0, false⟩] (by decide)⟩

/-- Claim C4: on a pool with pairwise-distinct ids (the pool invariant), a
completed draw marks exactly one seat's `assigned` flag true: the result
seat, previously free, sits at some position `j`, the new pool is the old
pool with only position `j` replaced by the same seat with
`assigned := true` (same id, side, indexOnSide), and every other position
is unchanged. -/
theorem spinForSeat_commit_frame (seats : List Seat) (T : Nat)
    (hl : List Nat) (res : Seat) (new : List Seat)
    (hnodup : (seats.map fun s => s.id).Nodup)
    (h : spinForSeat false seats T = SpinOutcome.completed hl res new) :
    ∃ j, j < seats.length ∧ seats.getD j defaultSeat = res ∧
      res.assigned = false ∧
      new = seats.set j { res with assigned := true } ∧
      new.length = seats.length ∧
      new.getD j defaultSeat = { res with assigned := true } ∧
      (∀ i, i ≠ j → new.getD i defaultSeat = seats.getD i defaultSeat) := by
  obtain ⟨hne, -, hres, hnew⟩ := spinForSeat_completed_inv seats T hl res new h
  have hmem : res ∈ seats.filter (fun s => !s.assigned) := by
    rw [hres]; exact stepLoop_snd_mem _ hne T 0
  have hmf := List.mem_filter.mp hmem
  have hfree : res.assigned = false := by simpa using hmf.2
  obtain ⟨j, hj, hget⟩ := List.mem_iff_getElem.mp hmf.1
  have hgetD : seats.getD j defaultSeat = res := by
    rw [List.getD_eq_getElem _ _ hj]; exact hget
  have hset : new = seats.set j { res with assigned := true } := by
    rw [hnew]; exact commitById_set seats res j hnodup hj hgetD
  refine ⟨j, hj, hgetD, hfree, hset, ?_, ?_, ?_⟩
  · rw [hset, List.length_set]
  · rw [hset, List.getD_eq_getElem?_getD, List.getElem?_set_self hj]
    rfl
  · intro i hij
    rw [hset, List.getD_eq_getElem?_getD, List.getElem?_set_ne (fun he => hij he.symm),
      ← List.getD_eq_getElem?_getD]

theorem spinForSeat_commit_frame_witness :
    (((generateSeats 2).map fun s => s.id).Nodup ∧
     spinForSeat false (generateSeats 2) 3 =
       SpinOutcome.completed [1, 2, 1] ⟨1, Side.top, 0, false⟩
         [⟨1, Side.top, 0, true⟩, ⟨2, Side.bottom, 0, false⟩]) ∧
    (∃ j, j < (generateSeats 2).length ∧
      (generateSeats 2).getD j defaultSeat = ⟨1, Side.top, 0, false⟩ ∧
      (⟨1, Side.top, 0, false⟩ : Seat).assigned = false ∧
      [⟨1, Side.top, 0, true⟩, ⟨2, Side.bottom, 0, false⟩] =
        (generateSeats 2).set j ⟨1, Side.top, 0, true⟩ ∧
      ([⟨1, Side.top, 0, true⟩, ⟨2, Side.bottom, 0, false⟩] :
        List Seat).length = (generateSeats 2).length ∧
      ([⟨1, Side.top, 0, true⟩, ⟨2, Side.bottom, 0, false⟩] :
        List Seat).getD j defaultSeat = ⟨1, Side.top, 0, true⟩ ∧
      (∀ i, i ≠ j →
        ([⟨1, Side.top, 0, true⟩, ⟨2, Side.bottom, 0, false⟩] :
          List Seat).getD i defaultSeat =
          (generateSeats 2).getD i defaultSeat)) :=
  ⟨⟨by decide, by decide⟩,
   spinForSeat_commit_frame (generateSeats 2) 3 [1, 2, 1]
     ⟨1, Side.top, 0, false⟩
     [⟨1, Side.top, 0, true⟩, ⟨2, Side.bottom, 0, false⟩]
     (by decide) (by decide)⟩

theorem spinForSeat_noSeats_of_all_assigned (seats : List Seat) (T : Nat)
    (hall : ∀ s ∈ seats, s.assigned = true) :
    spinForSeat false seats T = SpinOutcome.noAvailableSeats := by
  have hfil : seats.filter (fun s => !s.assigned) = [] := by
    rw [List.filter_eq_nil_iff]
    intro s hs
    simp [hall s hs]
  simp [spinForSeat, hfil]

theorem drawSeq_exhausts (ts : List Nat) :
    ∀ seats : List Seat, (seats.map fun s => s.id).Nodup →
    seats.countP (fun s => !s.assigned) = ts.length →
    ∃ final, drawSeq seats ts = some final ∧
      (∀ s ∈ final, s.assigned = true) ∧
      ∀ t, spinForSeat false final t = SpinOutcome.noAvailableSeats := by
  induction ts with
  | nil =>
    intro seats _ hcount
    have hall : ∀ s ∈ seats, s.assigned = true := by
      intro s hs
      have := List.countP_eq_zero.mp hcount s hs
      simpa using this
    exact ⟨seats, rfl, hall,
      fun t => spinForSeat_noSeats_of_all_assigned seats t hall⟩
  | cons t ts ih =>
    intro seats hnodup hcount
    have hfilne : seats.filter (fun s => !s.assigned) ≠ [] := by
      intro hcontra
      rw [List.countP_eq_length_filter, hcontra] at hcount
      simp at hcount
    have hspin := spinForSeat_completed_of_ne seats t hfilne
    have hresmem : (stepLoop (seats.filter fun s => !s.assigned) 0 t).2 ∈
        seats.filter (fun s => !s.assigned) :=
      stepLoop_snd_mem _ hfilne t 0
    have hmf := List.mem_filter.mp hresmem
    have hfree : (stepLoop (seats.filter fun s => !s.assigned) 0 t).2.assigned
        = false := by simpa using hmf.2
    have hcnt := commitById_countP seats _ hnodup hmf.1 hfree
    have hcount' : (commitById seats
        (stepLoop (seats.filter fun s => !s.assigned) 0 t).2.id).countP
        (fun s => !s.assigned) = ts.length := by
      rw [List.length_cons] at hcount
      omega
    have hnodup' : ((commitById seats
        (stepLoop (seats.filter fun s => !s.assigned) 0 t).2.id).map
        fun s => s.id).Nodup := by
      rw [commitById_ids]
      exact hnodup
    obtain ⟨final, hfin, hall, hfail⟩ := ih _ hnodup' hcount'
    refine ⟨final, ?_, hall, hfail⟩
    simp only [drawSeq, drawOnce, hspin]
    exact hfin

/-- Claim C6: against a freshly generated pool of size `N`, any sequence of
`N` draws (arbitrary tick budgets) all succeed, after which every seat is
assigned and any further draw fails with no available seats. -/
theorem repeated_draws_exhaust (N : Nat) (ts : List Nat)
    (hlen : ts.length = N) :
    ∃ final, drawSeq (generateSeats (N : Int)) ts = some final ∧
      (∀ s ∈ final, s.assigned = true) ∧
      ∀ t, spinForSeat false final t = SpinOutcome.noAvailableSeats := by
  apply drawSeq_exhausts
  · rw [generateSeats_ids]
    exact List.nodup_range' 1 N
  · rw [hlen]
    have hfree : ∀ s ∈ generateSeats (N : Int), (!s.assigned) = true := by
      intro s hs
      simp [generateSeats_assigned_all _ s hs]
    rw [List.countP_eq_length.mpr hfree]
    exact generateSeats_length N

theorem repeated_draws_exhaust_witness :
    ([1, 1] : List Nat).length = 2 ∧
    ∃ final, drawSeq (generateSeats ((2 : Nat) : Int)) [1, 1] = some final ∧
      (∀ s ∈ final, s.assigned = true) ∧
      ∀ t, spinForSeat false final t = SpinOutcome.noAvailableSeats :=
  ⟨by decide, repeated_draws_exhaust 2 [1, 1] (by decide)⟩

/-- Claim C5: on a pool in which every seat is assigned, `startDraw` fails
with no available seats: it only sets the status message, emits no
highlight events, performs no state transition (`isSpinning` stays false,
`pending` stays empty), and leaves the pool, the last result and the
highlight unchanged; the big-step `spinForSeat` returns
`noAvailableSeats`. -/
theorem startDraw_all_assigned_fails (st : AppState) (T : Nat)
    (hidle : st.isSpinning = false)
    (hall : ∀ s ∈ st.seats, s.assigned = true) :
    handleEvent st (AppEvent.startDraw T) =
      ({ st with message := some "Alle pladser er taget." }, []) ∧
    spinForSeat false st.seats T = SpinOutcome.noAvailableSeats := by
  have hfil : st.seats.filter (fun s => !s.assigned) = [] := by
    rw [List.filter_eq_nil_iff]
    intro s hs
    simp [hall s hs]
  constructor
  · simp [handleEvent, hidle, hfil]
  · simp [spinForSeat, hfil]

theorem startDraw_all_assigned_fails_witness :
    ((⟨[⟨1, Side.top, 0, true⟩, ⟨2, Side.bottom, 0, true⟩], false, none, none,
        none, []⟩ : AppState).isSpinning = false ∧
     (∀ s ∈ (⟨[⟨1, Side.top, 0, true⟩, ⟨2, Side.bottom, 0, true⟩], false,
        none, none, none, []⟩ : AppState).seats, s.assigned = true)) ∧
    (handleEvent
        ⟨[⟨1, Side.top, 0, true⟩, ⟨2, Side.bottom, 0, true⟩], false, none,
          none, none, []⟩ (AppEvent.startDraw 30) =
      (⟨[⟨1, Side.top, 0, true⟩, ⟨2, Side.bottom, 0, true⟩], false, none,
          none, some "Alle pladser er taget.", []⟩, []) ∧
     spinForSeat false [⟨1, Side.top, 0, true⟩, ⟨2, Side.bottom, 0, true⟩] 30 =
       SpinOutcome.noAvailableSeats) :=
  ⟨⟨by decide, by decide⟩,
   startDraw_all_assigned_fails
     ⟨[⟨1, Side.top, 0, true⟩, ⟨2, Side.bottom, 0, true⟩], false, none, none,
       none, []⟩ 30 (by decide) (by decide)⟩

theorem sessionInv_preserved (st : AppState) (e : AppEvent)
    (hinv : SessionInv st) (he : e.isReset = false) :
    SessionInv (handleEvent st e).1 := by
  obtain ⟨hiff, hlen⟩ := hinv
  cases e with
  | reset count => simp [AppEvent.isReset] at he
  | startDraw T =>
    by_cases hspin : st.isSpinning = true
    · simp only [handleEvent, if_pos hspin]
      exact ⟨hiff, hlen⟩
    · have hpend : st.pending = [] := by
        by_contra hne
        exact hspin (hiff.mpr hne)
      simp only [handleEvent, if_neg hspin]
      by_cases hz : (st.seats.filter fun s => !s.assigned).length = 0
      · rw [if_pos hz]
        exact ⟨hiff, hlen⟩
      · rw [if_neg hz]
        simp only [runStepE]
        split
        · exact ⟨by simp [hpend], by simp [hpend]⟩
        · exact ⟨by simp [hpend], by simp [hpend]⟩
  | tick =>
    cases hp : st.pending with
    | nil =>
      simp only [handleEvent, hp]
      exact ⟨hiff, hlen⟩
    | cons r rest =>
      have hrest : rest = [] := by
        rw [hp] at hlen
        simp only [List.length_cons] at hlen
        cases rest with
        | nil => rfl
        | cons a t => simp at hlen
      have hspin : st.isSpinning = true := hiff.mpr (by rw [hp]; simp)
      subst hrest
      simp only [handleEvent, hp, runStepE]
      split
      · exact ⟨by simp, by simp⟩
      · exact ⟨by simp [hspin], by simp⟩

theorem sessionInv_stepEvents (events : List AppEvent) :
    ∀ st, SessionInv st → (∀ e ∈ events, e.isReset = false) →
    SessionInv (stepEvents st events) := by
  induction events with
  | nil => intro st h _; exact h
  | cons e es ih =>
    intro st h hall
    exact ih _ (sessionInv_preserved st e h (hall e (by simp)))
      fun e' he' => hall e' (List.mem_cons_of_mem e he')

/-- Claim C8 counterexample: the global "never more than one in-flight
draw" invariant fails once `reset` is allowed mid-draw.  From the empty
initial state, the trace `reset 2; startDraw 3; reset 2; startDraw 3`
reaches a state with two pending draw sessions: `handleReset` clears
`isSpinning` but does not cancel the scheduled timeout chain, so the
second `startDraw` passes the guard and starts a second session. -/
theorem startDraw_second_session_counterexample :
    (stepEvents ⟨[], false, none, none, none, []⟩
      [AppEvent.reset 2, AppEvent.startDraw 3, AppEvent.reset 2,
       AppEvent.startDraw 3]).pending.length = 2 := by decide

/-- Claim C8 (amended): invoking `startDraw` while the engine is RUNNING
(`isSpinning = true`) is silently ignored — no new session, no events, no
state change; and in every state reachable by `startDraw` and `tick`
events alone (no `reset` mid-draw) from a state satisfying the session
invariant, at most one draw session is in flight. -/
theorem startDraw_single_session (st : AppState) (events : List AppEvent)
    (hinv : SessionInv st) (hnr : ∀ e ∈ events, e.isReset = false) :
    (∀ T, st.isSpinning = true →
      handleEvent st (AppEvent.startDraw T) = (st, [])) ∧
    SessionInv (stepEvents st events) ∧
    (stepEvents st events).pending.length ≤ 1 := by
  refine ⟨?_, sessionInv_stepEvents events st hinv hnr,
    (sessionInv_stepEvents events st hinv hnr).2⟩
  intro T hspin
  simp [handleEvent, hspin]

theorem startDraw_single_session_witness :
    (SessionInv ⟨generateSeats 2, false, none, none, none, []⟩ ∧
     (∀ e ∈ [AppEvent.startDraw 3, AppEvent.tick], e.isReset = false)) ∧
    ((∀ T, (⟨generateSeats 2, false, none, none, none, []⟩ :
        AppState).isSpinning = true →
      handleEvent ⟨generateSeats 2, false, none, none, none, []⟩
          (AppEvent.startDraw T) =
        (⟨generateSeats 2, false, none, none, none, []⟩, [])) ∧
     SessionInv (stepEvents ⟨generateSeats 2, false, none, none, none, []⟩
       [AppEvent.startDraw 3, AppEvent.tick]) ∧
     (stepEvents ⟨generateSeats 2, false, none, none, none, []⟩
       [AppEvent.startDraw 3, AppEvent.tick]).pending.length ≤ 1) :=
  ⟨⟨by decide, by decide⟩,
   startDraw_single_session ⟨generateSeats 2, false, none, none, none, []⟩
     [AppEvent.startDraw 3, AppEvent.tick] (by decide) (by decide)⟩

/-- Claim C9: the terminal commit updates the pool by id equality, not by
reference or snapshot membership — whatever pool is current at commit
time, the committed seat `s` (read from the session's own snapshot at the
current cursor) yields that pool with every seat whose id equals `s.id`
marked `assigned := true` and every other seat unchanged.  In particular
(see the witness) a draw whose pool was replaced mid-draw by a reset still
marks the same-id seat in the replacement pool. -/
theorem tick_commit_by_id (st : AppState) (r : RunState)
    (rest : List RunState) (hp : st.pending = r :: rest)
    (hterm : r.remainingSteps ≤ 1) :
    ((handleEvent st AppEvent.tick).1).seats =
      st.seats.map fun s =>
        if s.id = (r.seatsPool.getD (r.currentIndex % r.seatsPool.length)
            defaultSeat).id
        then { s with assigned := true } else s := by
  simp only [handleEvent, hp, runStepE, if_pos hterm]
  rfl

theorem tick_commit_by_id_witness :
    ((stepEvents ⟨[], false, none, none, none, []⟩
        [AppEvent.reset 2, AppEvent.startDraw 2, AppEvent.reset 2]).pending =
      (⟨generateSeats 2, 1, 1⟩ : RunState) :: [] ∧
     (⟨generateSeats 2, 1, 1⟩ : RunState).remainingSteps ≤ 1) ∧
    ((handleEvent (stepEvents ⟨[], false, none, none, none, []⟩
        [AppEvent.reset 2, AppEvent.startDraw 2, AppEvent.reset 2])
        AppEvent.tick).1).seats =
      (stepEvents ⟨[], false, none, none, none, []⟩
        [AppEvent.reset 2, AppEvent.startDraw 2, AppEvent.reset 2]).seats.map
        (fun s =>
          if s.id = ((generateSeats 2).getD (1 % (generateSeats 2).length)
              defaultSeat).id
          then { s with assigned := true } else s) ∧
    ((handleEvent (stepEvents ⟨[], false, none, none, none, []⟩
        [AppEvent.reset 2, AppEvent.startDraw 2, AppEvent.reset 2])
        AppEvent.tick).1).seats ≠
      (stepEvents ⟨[], false, none, none, none, []⟩
        [AppEvent.reset 2, AppEvent.startDraw 2, AppEvent.reset 2]).seats :=
  ⟨⟨by decide, by decide⟩,
   tick_commit_by_id
     (stepEvents ⟨[], false, none, none, none, []⟩
       [AppEvent.reset 2, AppEvent.startDraw 2, AppEvent.reset 2])
     ⟨generateSeats 2, 1, 1⟩ [] (by decide) (by decide),
   by decide⟩
